import Mathlib

/-!
Shallow embedding of the agent-orchestration core of the repository
(`src/2_openai/muthama/local` and `src/2_openai/muthama/llm_local`),
together with proofs of the specification claims about it.

Modelling conventions:
* Python strings are Lean `String` / `List Char`; case folding and
  whitespace handling are modelled at the ASCII level (the repository only
  manipulates ASCII literals).
* Python floats are modelled as `Rat`; the priorities that actually occur
  are exact decimal fractions and no claim observes binary rounding.
* Python's stable `list.sort` is modelled by a stable insertion sort
  (`sInsert` / `stableSort`), proved below to sort and to be stable.
* Fallible Python code is modelled with `Except`; an exception escaping a
  handler corresponds to an `Except.error` value.
-/

namespace Agents

/-! ### ASCII character and string helpers (Python `str` methods, `re`) -/

/-- Python whitespace (`str.strip`, `str.split`, regex `\s`), ASCII subset. -/
def isPySpace (c : Char) : Bool :=
  c == ' ' || c == '\t' || c == '\n' || c == '\r' || c == '\x0b' || c == '\x0c'

/-- ASCII lower-casing of a list of characters (Python `str.lower`). -/
def lowerL (cs : List Char) : List Char := cs.map Char.toLower

/-- ASCII lower-casing of a string (Python `str.lower`). -/
def lowerStr (s : String) : String := String.mk (lowerL s.data)

/-- Python `str.strip()` on a list of characters. -/
def stripL (cs : List Char) : List Char :=
  ((cs.dropWhile isPySpace).reverse.dropWhile isPySpace).reverse

/-- Python `str.strip()`. -/
def stripWsStr (s : String) : String := String.mk (stripL s.data)

/-- Membership in the character set of `str.strip(" .;,:")` used by
`validate_and_refine_searches`. -/
def isPunctEdge (c : Char) : Bool :=
  c == ' ' || c == '.' || c == ';' || c == ',' || c == ':'

/-- Python `str.strip(" .;,:")` on a list of characters. -/
def stripPunctL (cs : List Char) : List Char :=
  ((cs.dropWhile isPunctEdge).reverse.dropWhile isPunctEdge).reverse

/-- `re.sub(r'\s+', ' ', ·)`: collapse every whitespace run to one space. -/
def collapseL : List Char → List Char
  | [] => []
  | [c] => [if isPySpace c then ' ' else c]
  | c₁ :: c₂ :: rest =>
    if isPySpace c₁ && isPySpace c₂ then collapseL (c₂ :: rest)
    else (if isPySpace c₁ then ' ' else c₁) :: collapseL (c₂ :: rest)

/-- Worker for Python `str.split()`: accumulate the current token (in
reverse) and emit it at each whitespace run. -/
def splitWsGo : List Char → List Char → List (List Char)
  | [], cur => if cur.isEmpty then [] else [cur.reverse]
  | c :: rest, cur =>
    if isPySpace c then
      if cur.isEmpty then splitWsGo rest [] else cur.reverse :: splitWsGo rest []
    else splitWsGo rest (c :: cur)

/-- Python `str.split()` (split on whitespace runs, no empty tokens). -/
def splitWsStr (s : String) : List String := (splitWsGo s.data []).map String.mk

/-- Case-insensitive prefix test, used for regex literals under `re.I`. -/
def ciPrefix : List Char → List Char → Bool
  | [], _ => true
  | _ :: _, [] => false
  | a :: as, c :: cs => (a.toLower == c.toLower) && ciPrefix as cs

/-- First alternative (in order) matching at the head of `cs`; returns the
length of the match.  Mirrors regex alternation preference at a position. -/
def altMatch : List (List Char) → List Char → Option Nat
  | [], _ => none
  | a :: rest, cs => if ciPrefix a cs then some a.length else altMatch rest cs

/-- Fuel-driven worker for `re.split` with literal alternatives: scan left
to right and split at each leftmost match.  The fuel is an upper bound on
the remaining input length (all alternatives are non-empty, so each step
consumes at least one character). -/
def reSplitGo (alts : List (List Char)) : Nat → List Char → List Char → List (List Char)
  | _, [], cur => [cur.reverse]
  | 0, cs, cur => [cur.reverse ++ cs]
  | fuel + 1, c :: rest, cur =>
    match altMatch alts (c :: rest) with
    | some m => cur.reverse :: reSplitGo alts fuel (List.drop m (c :: rest)) []
    | none => reSplitGo alts fuel rest (c :: cur)

/-- `re.split(pattern, s, flags=re.I)` for a pattern that is an ordered
alternation of literal alternatives. -/
def reSplit (alts : List (List Char)) (s : String) : List String :=
  (reSplitGo alts s.data.length s.data []).map String.mk

/-- Substring test on lists of characters (Python `in` on strings). -/
def subList (sub : List Char) : List Char → Bool
  | [] => sub.isEmpty
  | c :: rest => sub.isPrefixOf (c :: rest) || subList sub rest

/-- Python `sub in s` for strings. -/
def containsSubstr (s sub : String) : Bool := subList sub.data s.data

/-- Regex word character `\w`, ASCII subset. -/
def isWordChar (c : Char) : Bool := c.isAlpha || c.isDigit || c == '_'

/-- Worker counting regex word-bounded occurrences of `w`
(`len(re.findall(r'\b<w>\b', ·))`); `prev` is the character before the
current position, if any. -/
def countWordGo (w : List Char) : Option Char → List Char → Nat
  | _, [] => 0
  | prev, c :: rest =>
    let prevOk := match prev with
      | none => true
      | some p => !isWordChar p
    let nextOk := match List.drop w.length (c :: rest) with
      | [] => true
      | d :: _ => !isWordChar d
    (if prevOk && w.isPrefixOf (c :: rest) && nextOk then 1 else 0) +
      countWordGo w (some c) rest

/-- `len(re.findall(r'\b<w>\b', s))` for a word `w` of word characters. -/
def countWord (w : String) (s : String) : Nat := countWordGo w.data none s.data

/-- Python `s.count(c)` for a single character. -/
def countChar (c : Char) (s : String) : Nat := s.data.count c

/-- `len(re.findall(r'[...]', s))` for a character class given as a list. -/
def countClassChars (cls : List Char) (s : String) : Nat :=
  s.data.countP (fun c => cls.contains c)

/-! ### `local/planner_agent.py`: the heuristic planner -/

def MIN_SEARCHES : Nat := 1

def MAX_SEARCHES : Nat := 6

/-- The `QUESTION_WORDS` set from the source (15 words). -/
def QUESTION_WORDS : List String :=
  ["what", "how", "why", "when", "where", "which", "who", "whom",
   "does", "is", "are", "can", "could", "should", "would"]

/-- The four-signal score computed by `determine_search_count` on the
stripped query `q` (word count, punctuation, question word, topic hint).
Note that the question-word signal is a SUBSTRING test (`w in q.lower()`),
as in the source. -/
def searchSignalBase (q : String) : Nat :=
  1 + (if 8 ≤ (splitWsStr q).length then 1 else 0)
    + (if 1 ≤ countClassChars ['?', ',', ';', ':', '-'] q then 1 else 0)
    + (if QUESTION_WORDS.any (fun w => containsSubstr (lowerStr q) w) then 1 else 0)
    + (if 1 ≤ countChar ',' q + countChar '/' q + countWord "and" (lowerStr q) then 1 else 0)

/-- `determine_search_count(query)` with the default bounds
`min_searches = 1`, `max_searches = 6`. -/
def determine_search_count (query : String) : Nat :=
  if stripWsStr query = "" then MIN_SEARCHES
  else max MIN_SEARCHES (min MAX_SEARCHES (searchSignalBase (stripWsStr query)))

/-- Modelled from the spec: the 13-word question-word list given by the
claim's source sentence (it omits the source's `whom` and `could`). -/
def claimQuestionWords : List String :=
  ["what", "how", "why", "when", "where", "which", "who",
   "does", "is", "are", "can", "should", "would"]

/-- Modelled from the spec: the count formula exactly as claim C4 states
it — 1 plus one per signal, where the question-word signal is the
PRESENCE OF A QUESTION WORD (a word-bounded occurrence) from the listed
13-word set, clamped to `[1, 6]`. -/
def searchCountClaimed (query : String) : Nat :=
  max 1 (min 6 (1 + (if 8 ≤ (splitWsStr (stripWsStr query)).length then 1 else 0)
    + (if 1 ≤ countClassChars ['?', ',', ';', ':', '-'] (stripWsStr query) then 1 else 0)
    + (if claimQuestionWords.any
          (fun w => 1 ≤ countWord w (lowerStr (stripWsStr query))) then 1 else 0)
    + (if 1 ≤ countChar ',' (stripWsStr query) + countChar '/' (stripWsStr query)
          + countWord "and" (lowerStr (stripWsStr query)) then 1 else 0)))

/-- Modelled from the spec as amended: 1 plus one per signal on the
trimmed query, clamped to `[1, 6]`, where the question-word signal is a
substring test over the source's 15-word set. -/
def searchCountAmended (query : String) : Nat :=
  max 1 (min 6 (1 + (if 8 ≤ (splitWsStr (stripWsStr query)).length then 1 else 0)
    + (if 1 ≤ countClassChars ['?', ',', ';', ':', '-'] (stripWsStr query) then 1 else 0)
    + (if QUESTION_WORDS.any
          (fun w => containsSubstr (lowerStr (stripWsStr query)) w) then 1 else 0)
    + (if 1 ≤ countChar ',' (stripWsStr query) + countChar '/' (stripWsStr query)
          + countWord "and" (lowerStr (stripWsStr query)) then 1 else 0)))

/-- The `WebSearchItem` dataclass of `local/planner_agent.py`. -/
structure WebSearchItem where
  query : String
  reason : Option String := none
  priority : Rat := 1 / 2
  rank : Option Nat := none
  tags : Option (List String) := none
  deriving Repr, DecidableEq

/-- The `WebSearchPlan` dataclass. -/
structure WebSearchPlan where
  searches : List WebSearchItem
  deriving Repr, DecidableEq

/-- Python `round(x, 3)` on the exact rational value (round half to even). -/
def round3 (q : Rat) : Rat :=
  let m := q * 1000
  let f : Int := m.floor
  let frac := m - (f : Rat)
  let r : Int :=
    if frac < 1 / 2 then f
    else if 1 / 2 < frac then f + 1
    else if f % 2 = 0 then f else f + 1
  (r : Rat) / 1000

/-- Stable insertion of `a` into `l`: `a` goes in front of the first
element `b` with `le a b`, so elements equivalent under `le` keep their
original relative order. -/
def sInsert (le : α → α → Bool) (a : α) : List α → List α
  | [] => [a]
  | b :: bs => if le a b then a :: b :: bs else b :: sInsert le a bs

/-- Stable sort modelling Python's stable `list.sort`. -/
def stableSort (le : α → α → Bool) : List α → List α
  | [] => []
  | a :: as => sInsert le a (stableSort le as)

/-- The comparison induced by `key=lambda x: -x.priority`: descending
priority. -/
def priorityDesc (a b : WebSearchItem) : Bool := decide (b.priority ≤ a.priority)

/-- The per-item normalized query text of `validate_and_refine_searches`
(trim, collapse internal whitespace, strip trailing/leading `" .;,:"`). -/
def normQuery (s : String) : String :=
  String.mk (stripPunctL (collapseL (stripWsStr s).data))

/-- The filtering/deduplication loop of `validate_and_refine_searches`;
`seen` is the set of case-insensitive keys already kept. -/
def refineLoop : List WebSearchItem → List String → List WebSearchItem
  | [], _ => []
  | it :: rest, seen =>
    if (normQuery it.query).length < 3 then refineLoop rest seen
    else if lowerStr (normQuery it.query) ∈ seen then refineLoop rest seen
    else
      { query := normQuery it.query, reason := it.reason, priority := round3 it.priority,
        rank := none, tags := none }
        :: refineLoop rest (lowerStr (normQuery it.query) :: seen)

/-- `validate_and_refine_searches(items, max_items)`: filter/deduplicate,
stable-sort by descending priority, truncate. -/
def validate_and_refine_searches (items : List WebSearchItem) (maxItems : Nat) :
    List WebSearchItem :=
  (stableSort priorityDesc (refineLoop items [])).take maxItems

/-- The split pattern `r',|about|for| on | regarding | about '` of
`_planner_handler`, as an ordered list of literal alternatives. -/
def plannerSplitAlts : List (List Char) :=
  [",".data, "about".data, "for".data, " on ".data, " regarding ".data, " about ".data]

/-- A candidate `WebSearchItem(query=q, reason=r)` (other fields default). -/
def mkCandidate (q : String) (reason : String) : WebSearchItem :=
  { query := q, reason := some reason, priority := 1 / 2, rank := none, tags := none }

/-- `parts = [p.strip() for p in re.split(...)  if p.strip()]` of
`_planner_handler`. -/
def plannerParts (query : String) : List String :=
  ((reSplit plannerSplitAlts query).map stripWsStr).filter (fun p => decide (p ≠ ""))

/-- The topic-expansion loop of `_planner_handler` (three variants per
part; empty when there are no parts). -/
def plannerTopicCandidates (parts : List String) : List WebSearchItem :=
  if parts.isEmpty then []
  else parts.flatMap (fun p =>
    [mkCandidate (p ++ " overview") "General overview",
     mkCandidate (p ++ " tutorial") "How-to / hands-on",
     mkCandidate (p ++ " recent developments") "Latest updates"])

/-- Candidate construction in `_planner_handler`: split the query into
topic parts, expand each part into three variants, and fall back to the
first six whitespace words when no candidates were produced. -/
def plannerCandidates (query : String) : List WebSearchItem :=
  if (plannerTopicCandidates (plannerParts query)).isEmpty then
    ((splitWsStr query).take 6).map (fun w => mkCandidate w "Keyword")
  else plannerTopicCandidates (plannerParts query)

/-- The rank-assignment loop `for i, c in enumerate(candidates, start=1)`. -/
def assignRanks : Nat → List WebSearchItem → List WebSearchItem
  | _, [] => []
  | i, c :: rest => { c with rank := some i } :: assignRanks (i + 1) rest

/-- `_planner_handler` of `local/planner_agent.py` for a string payload:
the heuristic `plan` operation. -/
def plannerHandler (query : String) : WebSearchPlan :=
  ⟨assignRanks 1
    (validate_and_refine_searches (plannerCandidates query) (determine_search_count query))⟩

/-! ### `local/search_agent.py`: the simulated search -/

/-- The `SearchResultItem` dataclass. -/
structure SearchResultItem where
  query : String
  snippet : String
  url : String
  deriving Repr, DecidableEq

/-- The payload shapes accepted by `_search_handler` (`isinstance` chain:
a list, an object with a `searches` field, or anything else stringified). -/
inductive SearchPayload where
  | items (l : List WebSearchItem)
  | plan (p : WebSearchPlan)
  | raw (s : String)

/-- `q.replace(' ', '+')`: the only transformation the source applies to
the query before embedding it in the URL. -/
def plusEncode (s : String) : String :=
  String.mk (s.data.map (fun c => if c == ' ' then '+' else c))

/-- The body of the result-construction loop of `_search_handler`
(the two f-strings). -/
def simulatedResult (it : WebSearchItem) : SearchResultItem :=
  { query := it.query,
    snippet := "Simulated snippet for '" ++ it.query ++ "': key findings and summary.",
    url := "https://example.com/search?q=" ++ plusEncode it.query }

/-- The `for it in items` loop of `_search_handler`. -/
def searchLoop : List WebSearchItem → List SearchResultItem
  | [] => []
  | it :: rest => simulatedResult it :: searchLoop rest

/-- `_search_handler`. -/
def searchHandler : SearchPayload → List SearchResultItem
  | .items l => searchLoop l
  | .plan p => searchLoop p.searches
  | .raw s =>
    searchLoop [{ query := s, reason := none, priority := 1 / 2, rank := none, tags := none }]

/-- Modelled from the spec: standard URL query encoding
(`urllib.parse.quote_plus`): ASCII letters, digits and `_.-~` are kept,
a space becomes `+`, every other character is percent-encoded as the
uppercase hex of its UTF-8 bytes.  This definition only formalizes what
"the url-encoded query" means in the claim; the source does not perform
this encoding. -/
def hexDigitChar (n : Nat) : Char :=
  if n < 10 then Char.ofNat ('0'.toNat + n) else Char.ofNat ('A'.toNat + (n - 10))

/-- The UTF-8 byte values of a character. -/
def utf8Bytes (c : Char) : List Nat :=
  let n := c.toNat
  if n < 128 then [n]
  else if n < 2048 then [192 + n / 64, 128 + n % 64]
  else if n < 65536 then [224 + n / 4096, 128 + (n / 64) % 64, 128 + n % 64]
  else [240 + n / 262144, 128 + (n / 4096) % 64, 128 + (n / 64) % 64, 128 + n % 64]

/-- Encoding of one character under `urllib.parse.quote_plus`. -/
def quotePlusChar (c : Char) : List Char :=
  if c == ' ' then ['+']
  else if c.isAlpha || c.isDigit || c == '_' || c == '.' || c == '-' || c == '~' then [c]
  else (utf8Bytes c).flatMap
    (fun b => ['%', hexDigitChar (b / 16), hexDigitChar (b % 16)])

/-- `urllib.parse.quote_plus` (see `quotePlusChar`). -/
def quotePlus (s : String) : String := String.mk (s.data.flatMap quotePlusChar)

/-! ### `local/writer_agent.py`: the simulated writer -/

/-- The `ReportData` dataclass.  The metadata dict produced by the writer
always has the single integer entry `count`, so it is modelled as an
association list from strings to naturals (default `None`). -/
structure ReportData where
  title : String
  markdown_report : String
  metadata : Option (List (String × Nat)) := none
  deriving Repr, DecidableEq

/-- The payload shapes accepted by `_writer_handler`: a list whose
elements all have a `snippet` attribute (including the empty list), a dict
containing `search_results`, or any other payload (stringified). -/
inductive WriterPayload where
  | items (l : List SearchResultItem)
  | searchResults (l : List SearchResultItem)
  | raw (s : String)

/-- Python `repr` of a string: quote selection as in CPython (single
quotes unless the string contains a single quote and no double quote) with
backslash and quote escaping.  Escapes for control characters are not
modelled; no embedded payload contains them. -/
def pyReprStr (s : String) : String :=
  let hasSingle := s.data.contains '\''
  let hasDouble := s.data.contains '"'
  let qc : Char := if hasSingle && !hasDouble then '"' else '\''
  let body := s.data.flatMap (fun c => if c == '\\' || c == qc then ['\\', c] else [c])
  String.mk (qc :: body ++ [qc])

/-- The section lines emitted by the writer's
`for i, item in enumerate(findings, start=1)` loop. -/
def sectionLines : Nat → List SearchResultItem → List String
  | _, [] => []
  | i, item :: rest =>
    ("## Result " ++ toString i ++ ": " ++ item.query) :: item.snippet ::
      ("[source](" ++ item.url ++ ")") :: "" :: sectionLines (i + 1) rest

/-- `_writer_handler`. -/
def writerHandler (p : WriterPayload) : ReportData :=
  let findings : List SearchResultItem ⊕ String :=
    match p with
    | .items l => .inl l
    | .searchResults l => .inl l
    | .raw s => .inr s
  let title := "Research Report"
  let bodyLines : List String :=
    match findings with
    | .inl (x :: xs) => sectionLines 1 (x :: xs)
    | .inl [] => ["Findings:", "[]"]
    | .inr s => ["Findings:", "[" ++ pyReprStr s ++ "]"]
  let count : Nat :=
    match findings with
    | .inl l => l.length
    | .inr _ => 1
  { title := title,
    markdown_report := String.intercalate "\n" (("# " ++ title) :: "" :: bodyLines),
    metadata := some [("count", count)] }

/-! ### `local/email_agent.py`: the simulated email sender -/

/-- The payload shapes accepted by `_email_handler`. -/
inductive EmailPayload where
  | report (r : ReportData)
  | dictWithMarkdown (md : String)
  | raw (s : String)

/-- `_email_handler`: extracts a body (used only by the simulated print,
which has no observable effect here) and always returns the literal status
string `"email_sent"`. -/
def emailHandler (p : EmailPayload) : String :=
  let _body : String :=
    match p with
    | .report r => r.markdown_report
    | .dictWithMarkdown md => md
    | .raw s => s
  "email_sent"

/-! ### `local/manager_agent.py`: the pipeline orchestrator -/

/-- The error type of the two structural checks in `_manager_handler`
("Planner did not return a WebSearchPlan" / "Writer did not return a
ReportData"). -/
inductive PipelineError where
  | plannerShape
  | writerShape
  deriving Repr, DecidableEq

/-- The Writing-stage output for a query: the first three stages of
`_manager_handler` composed (Planning, Searching, Writing). -/
def pipelineReport (query : String) : ReportData :=
  writerHandler (.searchResults (searchHandler (.items (plannerHandler query).searches)))

/-- `_manager_handler`: Planning → Searching → Writing → Emailing.  The
typed planner always returns a `WebSearchPlan` and the typed writer a
`ReportData`, so the two structural-shape checks of the source cannot
fire; their positions are kept as comments.  The Emailing result is bound
and discarded, exactly as in the source (`await Runner.run(email_agent,
report)` with an unused result). -/
def managerRun (query : String) : Except PipelineError ReportData :=
  let plan := plannerHandler query
  -- `isinstance(plan, WebSearchPlan)` holds by construction
  let searches := plan.searches
  let results := searchHandler (.items searches)
  let report := writerHandler (.searchResults results)
  -- `isinstance(report, ReportData)` holds by construction
  let _emailStatus := emailHandler (.report report)
  Except.ok report

/-! ### `agents.py`: `RunnerResult.final_output_as`

The coercion operates on dynamically-typed Python values; the universe of
values it inspects is modelled by `PyVal`, Python classes by `PyType`. -/

/-- Dynamically-typed Python values as seen by `final_output_as`. -/
inductive PyVal where
  | str (s : String)
  | int (n : Int)
  | noneV
  | list (xs : List PyVal)
  | dict (kvs : List (String × PyVal))
  | inst (tyName : String) (fields : List (String × PyVal))

/-- `type(v).__name__`. -/
def pyTypeName : PyVal → String
  | .str _ => "str"
  | .int _ => "int"
  | .noneV => "NoneType"
  | .list _ => "list"
  | .dict _ => "dict"
  | .inst n _ => n

/-- A Python dataclass type: name, required fields, and optional fields
with their default values. -/
structure PyType where
  name : String
  required : List String
  optionalF : List (String × PyVal)

/-- `isinstance(v, ty)`. -/
def instanceOf (v : PyVal) (ty : PyType) : Bool := pyTypeName v == ty.name

/-- Python dataclass keyword construction `Ty(**d)`: every key must be a
declared field and every required field must be supplied, otherwise the
constructor raises `TypeError`; field values are not type-checked. -/
def constructFrom (ty : PyType) (d : List (String × PyVal)) : Option PyVal :=
  if d.all (fun kv => (ty.required ++ ty.optionalF.map (fun f => f.1)).contains kv.1)
      && ty.required.all (fun r => (d.map (fun kv => kv.1)).contains r) then
    some (.inst ty.name
      (ty.required.map (fun r => (r, (d.lookup r).getD .noneV))
        ++ ty.optionalF.map (fun f => (f.1, (d.lookup f.1).getD f.2))))
  else none

/-- The two error messages of `final_output_as`:
`"Cannot convert output to <target>: <e>"` for a failed construction and
`"Result cannot be converted to <target> (type=<src>)"` otherwise. -/
inductive CoercionError where
  | constructionFailed (target : String)
  | wrongShape (target : String) (srcType : String)
  deriving Repr, DecidableEq

/-- The non-instance path of `final_output_as` (its code after the first
`isinstance` check): one construction attempt for dicts, immediate
failure otherwise. -/
def coerceNonInstance (output : PyVal) (ty : PyType) : Except CoercionError PyVal :=
  match output with
  | .dict d =>
    match constructFrom ty d with
    | some w => .ok w
    | none => .error (.constructionFailed ty.name)
  | v => .error (.wrongShape ty.name (pyTypeName v))

/-- `RunnerResult.final_output_as` (identical in `local/agents.py` and
`llm_local/agents.py`). -/
def final_output_as (output : PyVal) (ty : PyType) : Except CoercionError PyVal :=
  if instanceOf output ty then .ok output
  else coerceNonInstance output ty

/-- The `ReportData` dataclass as a `PyType` (two required fields, one
optional field defaulting to `None`). -/
def reportDataTy : PyType :=
  { name := "ReportData", required := ["title", "markdown_report"],
    optionalF := [("metadata", .noneV)] }

/-! ### `llm_local/agents.py`: JSON and `_extract_json_from_text`

`json.loads` is embedded as a strict recursive-descent JSON parser on
exact values: JSON numbers without fraction/exponent become Python `int`s,
all others Python floats (exact `Rat` here).  Surrogate-pair combination
in `\u` escapes and the non-standard `Infinity`/`NaN` literals accepted by
Python are outside the model; no claim involves them. -/

/-- Parsed JSON values (Python `json.loads` output). -/
inductive JVal where
  | null
  | bool (b : Bool)
  | int (n : Int)
  | float (q : Rat)
  | str (s : String)
  | arr (elems : List JVal)
  | obj (fields : List (String × JVal))

/-- JSON whitespace (the `[ \t\n\r]*` of Python's json decoder). -/
def jsonWs (c : Char) : Bool := c == ' ' || c == '\t' || c == '\n' || c == '\r'

/-- Skip JSON whitespace. -/
def skipWs (cs : List Char) : List Char := cs.dropWhile jsonWs

/-- Numeric value of a decimal digit. -/
def digitVal (c : Char) : Nat := c.toNat - '0'.toNat

/-- Numeric value of a hex digit, if any. -/
def hexVal (c : Char) : Option Nat :=
  if c.isDigit then some (c.toNat - 48)
  else if 'a' ≤ c && c ≤ 'f' then some (c.toNat - 87)
  else if 'A' ≤ c && c ≤ 'F' then some (c.toNat - 55)
  else none

/-- Decimal digits to a natural number. -/
def digitsToNat (ds : List Char) : Nat := ds.foldl (fun acc c => acc * 10 + digitVal c) 0

/-- Strict JSON string body (after the opening quote): plain characters,
the standard escapes, `\uXXXX`, and rejection of raw control characters. -/
def parseStringBody : Nat → List Char → List Char → Option (String × List Char)
  | 0, _, _ => none
  | _ + 1, _, [] => none
  | fuel + 1, acc, c :: rest =>
    if c == '"' then some (String.mk acc.reverse, rest)
    else if c == '\\' then
      match rest with
      | [] => none
      | e :: rest2 =>
        if e == '"' then parseStringBody fuel ('"' :: acc) rest2
        else if e == '\\' then parseStringBody fuel ('\\' :: acc) rest2
        else if e == '/' then parseStringBody fuel ('/' :: acc) rest2
        else if e == 'b' then parseStringBody fuel ('\x08' :: acc) rest2
        else if e == 'f' then parseStringBody fuel ('\x0c' :: acc) rest2
        else if e == 'n' then parseStringBody fuel ('\n' :: acc) rest2
        else if e == 'r' then parseStringBody fuel ('\r' :: acc) rest2
        else if e == 't' then parseStringBody fuel ('\t' :: acc) rest2
        else if e == 'u' then
          match rest2 with
          | h1 :: h2 :: h3 :: h4 :: rest3 =>
            match hexVal h1, hexVal h2, hexVal h3, hexVal h4 with
            | some a, some b, some c2, some d =>
              parseStringBody fuel (Char.ofNat (((a * 16 + b) * 16 + c2) * 16 + d) :: acc) rest3
            | _, _, _, _ => none
          | _ => none
        else none
    else if c.toNat < 32 then none
    else parseStringBody fuel (c :: acc) rest

/-- A JSON number at the head of the input, per Python json's `NUMBER_RE`
`-?(0|[1-9]\d*)(\.\d+)?([eE][+-]?\d+)?`: integers (no fraction and no
exponent) become `JVal.int`, everything else `JVal.float`. -/
def parseNumber (cs : List Char) : Option (JVal × List Char) :=
  let signSplit : Bool × List Char :=
    match cs with
    | '-' :: rest => (true, rest)
    | _ => (false, cs)
  let neg := signSplit.1
  let cs1 := signSplit.2
  match cs1 with
  | [] => none
  | c :: tail =>
    if !c.isDigit then none
    else
      let intSplit : List Char × List Char :=
        if c == '0' then ([c], tail)
        else (cs1.takeWhile Char.isDigit, cs1.dropWhile Char.isDigit)
      let intDs := intSplit.1
      let cs2 := intSplit.2
      let fracSplit : List Char × List Char :=
        match cs2 with
        | '.' :: d :: rest => if d.isDigit
            then ((d :: rest).takeWhile Char.isDigit, (d :: rest).dropWhile Char.isDigit)
            else ([], cs2)
        | _ => ([], cs2)
      let fracDs := fracSplit.1
      let cs3 := fracSplit.2
      let expSplit : Bool × List Char × List Char :=
        match cs3 with
        | e :: rest =>
          if e == 'e' || e == 'E' then
            match rest with
            | '+' :: d :: r2 => if d.isDigit
                then (false, (d :: r2).takeWhile Char.isDigit, (d :: r2).dropWhile Char.isDigit)
                else (false, [], cs3)
            | '-' :: d :: r2 => if d.isDigit
                then (true, (d :: r2).takeWhile Char.isDigit, (d :: r2).dropWhile Char.isDigit)
                else (false, [], cs3)
            | d :: r2 => if d.isDigit
                then (false, (d :: r2).takeWhile Char.isDigit, (d :: r2).dropWhile Char.isDigit)
                else (false, [], cs3)
            | [] => (false, [], cs3)
          else (false, [], cs3)
        | [] => (false, [], cs3)
      let expNeg := expSplit.1
      let expDs := expSplit.2.1
      let cs4 := expSplit.2.2
      if fracDs.isEmpty && expDs.isEmpty then
        some (.int ((if neg then -1 else 1) * (digitsToNat intDs : Int)), cs2)
      else
        let mant : Int := (if neg then -1 else 1) *
          ((digitsToNat intDs * 10 ^ fracDs.length + digitsToNat fracDs : Nat) : Int)
        let e10 : Int := (if expNeg then -(digitsToNat expDs : Int) else (digitsToNat expDs : Int))
          - (fracDs.length : Int)
        some (.float ((mant : Rat) * (10 : Rat) ^ e10), cs4)

mutual

/-- A JSON value at the head of the input (leading whitespace allowed). -/
def parseVal : Nat → List Char → Option (JVal × List Char)
  | 0, _ => none
  | fuel + 1, cs0 =>
    match skipWs cs0 with
    | [] => none
    | c :: rest =>
      if c == '{' then
        match skipWs rest with
        | '}' :: rest2 => some (.obj [], rest2)
        | cs2 => (parseMembers fuel cs2).map (fun p => (.obj p.1, p.2))
      else if c == '[' then
        match skipWs rest with
        | ']' :: rest2 => some (.arr [], rest2)
        | cs2 => (parseElems fuel cs2).map (fun p => (.arr p.1, p.2))
      else if c == '"' then
        (parseStringBody (rest.length + 1) [] rest).map (fun p => (.str p.1, p.2))
      else if c == 't' then
        match rest with
        | 'r' :: 'u' :: 'e' :: rest2 => some (.bool true, rest2)
        | _ => none
      else if c == 'f' then
        match rest with
        | 'a' :: 'l' :: 's' :: 'e' :: rest2 => some (.bool false, rest2)
        | _ => none
      else if c == 'n' then
        match rest with
        | 'u' :: 'l' :: 'l' :: rest2 => some (.null, rest2)
        | _ => none
      else parseNumber (c :: rest)

/-- A non-empty member list of a JSON object, up to and including the
closing brace. -/
def parseMembers : Nat → List Char → Option (List (String × JVal) × List Char)
  | 0, _ => none
  | fuel + 1, cs =>
    match skipWs cs with
    | '"' :: rest =>
      match parseStringBody (rest.length + 1) [] rest with
      | none => none
      | some (k, cs2) =>
        match skipWs cs2 with
        | ':' :: cs3 =>
          match parseVal fuel cs3 with
          | none => none
          | some (v, cs4) =>
            match skipWs cs4 with
            | ',' :: cs5 => (parseMembers fuel cs5).map (fun p => ((k, v) :: p.1, p.2))
            | '}' :: cs5 => some ([(k, v)], cs5)
            | _ => none
        | _ => none
    | _ => none

/-- A non-empty element list of a JSON array, up to and including the
closing bracket. -/
def parseElems : Nat → List Char → Option (List JVal × List Char)
  | 0, _ => none
  | fuel + 1, cs =>
    match parseVal fuel cs with
    | none => none
    | some (v, cs2) =>
      match skipWs cs2 with
      | ',' :: cs3 => (parseElems fuel cs3).map (fun p => (v :: p.1, p.2))
      | ']' :: cs3 => some ([v], cs3)
      | _ => none

end

/-- Python `json.loads` on a list of characters: one JSON value followed
only by whitespace. -/
def jsonLoads (cs : List Char) : Option JVal :=
  match parseVal (cs.length + 1) cs with
  | none => none
  | some (v, rest) => if (skipWs rest).isEmpty then some v else none

/-- Everything from the last occurrence of `close` back to the front
(the greedy `.*` of the span regex, with `re.S`). -/
def takeThroughLast (close : Char) (cs : List Char) : List Char :=
  (cs.reverse.dropWhile (fun c => !(c == close))).reverse

/-- `re.search(r'(\{.*\}|\[.*\])', text, flags=re.S)`: the leftmost
position where a brace (preferred) or bracket span starts, extended
greedily to the last matching closer. -/
def findSpan : List Char → Option (List Char)
  | [] => none
  | c :: rest =>
    if (c == '{') && rest.contains '}' then some ('{' :: takeThroughLast '}' rest)
    else if (c == '[') && rest.contains ']' then some ('[' :: takeThroughLast ']' rest)
    else findSpan rest

/-- The result of `_extract_json_from_text`: a parsed JSON value or the
raw input text. -/
inductive ExtractOut where
  | json (v : JVal)
  | raw (s : String)

/-- `_extract_json_from_text`: candidate = first greedy span if found,
else the whole text; strict parse, then one repair pass replacing single
quotes by double quotes, then fall back to the original text. -/
def extractJsonFromText (text : String) : ExtractOut :=
  match jsonLoads ((findSpan text.data).getD text.data) with
  | some v => .json v
  | none =>
    match jsonLoads (((findSpan text.data).getD text.data).map
        (fun c => if c == '\'' then '"' else c)) with
    | some v => .json v
    | none => .raw text

/-! ### `llm_local/planner_agent.py`: the LLM-backed planner -/

/-- Python exceptions that can escape the llm_local planner handler. -/
inductive PyError where
  | attributeError (objType : String) (attr : String)
  | typeError (msg : String)
  | valueError (msg : String)
  deriving Repr, DecidableEq

/-- `type(v).__name__` for parsed JSON values. -/
def jvalTypeName : JVal → String
  | .null => "NoneType"
  | .bool _ => "bool"
  | .int _ => "int"
  | .float _ => "float"
  | .str _ => "str"
  | .arr _ => "list"
  | .obj _ => "dict"

/-- Python `str` of a float, on the exact rational model: `<n>.0` for
integral values; the decimal text of non-integral values depends on binary
float rounding and is abstracted as `num/den` (no claim observes it). -/
def ratText (q : Rat) : String :=
  if q.den = 1 then toString q.num ++ ".0"
  else toString q.num ++ "/" ++ toString q.den

mutual

/-- Python `repr` of a parsed JSON value. -/
def pyRepr : JVal → String
  | .null => "None"
  | .bool b => if b then "True" else "False"
  | .int n => toString n
  | .float q => ratText q
  | .str s => pyReprStr s
  | .arr xs => "[" ++ pyReprList xs ++ "]"
  | .obj kvs => "\x7b" ++ pyReprFields kvs ++ "\x7d"

/-- Comma-separated `repr`s of list elements. -/
def pyReprList : List JVal → String
  | [] => ""
  | [x] => pyRepr x
  | x :: y :: rest => pyRepr x ++ ", " ++ pyReprList (y :: rest)

/-- Comma-separated `repr`s of dict entries. -/
def pyReprFields : List (String × JVal) → String
  | [] => ""
  | [kv] => pyReprStr kv.1 ++ ": " ++ pyRepr kv.2
  | kv :: kv2 :: rest => pyReprStr kv.1 ++ ": " ++ pyRepr kv.2 ++ ", " ++ pyReprFields (kv2 :: rest)

end

/-- Python `str` of a parsed JSON value (differs from `repr` only on
top-level strings). -/
def pyStr (v : JVal) : String :=
  match v with
  | .str s => s
  | v => pyRepr v

/-- `dict.get(k)`: the value of the LAST binding of `k` (later duplicate
keys win when Python builds the dict). -/
def objGet (kvs : List (String × JVal)) (k : String) : Option JVal :=
  kvs.reverse.lookup k

/-- `dict.get(k, d)`. -/
def objGetD (kvs : List (String × JVal)) (k : String) (d : JVal) : JVal :=
  (objGet kvs k).getD d

/-- The normalized item type built by the llm_local handler; `query`,
`reason` and `tags` take arbitrary values from the parsed JSON, `priority`
and `rank` are forced through `float()` / `int()`. -/
structure LLMSearchItem where
  query : JVal
  reason : JVal
  priority : Rat
  rank : Int
  tags : JVal

/-- The llm_local `WebSearchPlan`. -/
structure LLMSearchPlan where
  searches : List LLMSearchItem

/-- Python `float(<str>)` literal syntax (finite decimal forms; the
special literals `inf`/`nan` have no exact rational value and are outside
the model — no embedded code path produces them). -/
def parseFloatLit (cs0 : List Char) : Option Rat :=
  let cs := stripL cs0
  let signSplit : Bool × List Char :=
    match cs with
    | '+' :: r => (false, r)
    | '-' :: r => (true, r)
    | _ => (false, cs)
  let neg := signSplit.1
  let cs1 := signSplit.2
  let ip := cs1.takeWhile Char.isDigit
  let cs2 := cs1.dropWhile Char.isDigit
  let fracSplit : List Char × List Char :=
    match cs2 with
    | '.' :: r => (r.takeWhile Char.isDigit, r.dropWhile Char.isDigit)
    | _ => ([], cs2)
  let fp := fracSplit.1
  let cs3 := fracSplit.2
  let hadDot : Bool := match cs2 with
    | '.' :: _ => true
    | _ => false
  if ip.isEmpty && fp.isEmpty then none
  else
    let expPart : Option (Int × List Char) :=
      match cs3 with
      | [] => some (0, [])
      | e :: r =>
        if e == 'e' || e == 'E' then
          let sgnSplit : Int × List Char :=
            match r with
            | '+' :: r2 => (1, r2)
            | '-' :: r2 => (-1, r2)
            | _ => (1, r)
          let ds := sgnSplit.2.takeWhile Char.isDigit
          if ds.isEmpty then none
          else some (sgnSplit.1 * (digitsToNat ds : Int), sgnSplit.2.dropWhile Char.isDigit)
        else none
    let _ := hadDot
    match expPart with
    | none => none
    | some (e10, rest) =>
      if rest.isEmpty then
        some ((((if neg then -1 else 1) *
            ((digitsToNat ip * 10 ^ fp.length + digitsToNat fp : Nat) : Int) : Int) : Rat) *
          (10 : Rat) ^ (e10 - (fp.length : Int)))
      else none

/-- Python `int(<str>)` literal syntax (base 10). -/
def parseIntLit (cs0 : List Char) : Option Int :=
  let cs := stripL cs0
  let signSplit : Int × List Char :=
    match cs with
    | '+' :: r => (1, r)
    | '-' :: r => (-1, r)
    | _ => (1, cs)
  let ds := signSplit.2.takeWhile Char.isDigit
  if ds.isEmpty || !(signSplit.2.dropWhile Char.isDigit).isEmpty then none
  else some (signSplit.1 * (digitsToNat ds : Int))

/-- Truncation toward zero (Python `int(float)`). -/
def ratTrunc (q : Rat) : Int := if q < 0 then -((-q).floor) else q.floor

/-- Python `float(x)` on a parsed-JSON value. -/
def pyFloat : JVal → Except PyError Rat
  | .int n => .ok n
  | .float q => .ok q
  | .bool b => .ok (if b then 1 else 0)
  | .str s =>
    match parseFloatLit s.data with
    | some q => .ok q
    | none => .error (.valueError ("could not convert string to float: " ++ pyReprStr s))
  | v => .error (.typeError
      ("float() argument must be a string or a real number, not '" ++ jvalTypeName v ++ "'"))

/-- Python `int(x)` on a parsed-JSON value. -/
def pyInt : JVal → Except PyError Int
  | .int n => .ok n
  | .float q => .ok (ratTrunc q)
  | .bool b => .ok (if b then 1 else 0)
  | .str s =>
    match parseIntLit s.data with
    | some n => .ok n
    | none => .error (.valueError ("invalid literal for int() with base 10: " ++ pyReprStr s))
  | v => .error (.typeError
      ("int() argument must be a string, a bytes-like object or a real number, not '"
        ++ jvalTypeName v ++ "'"))

/-- Python iteration as used by `enumerate`: lists yield their elements,
strings yield one-character strings, dicts yield their keys; other values
raise `TypeError`. -/
def pyIterate : JVal → Except PyError (List JVal)
  | .arr xs => .ok xs
  | .str s => .ok (s.data.map (fun c => .str (String.mk [c])))
  | .obj kvs => .ok (kvs.map (fun kv => JVal.str kv.1))
  | v => .error (.typeError ("'" ++ jvalTypeName v ++ "' object is not iterable"))

/-- One iteration of the normalization loop of the llm_local
`_planner_handler` (constructor arguments evaluated in source order:
`priority` before `rank`, either conversion may raise). -/
def normalizeItem (i : Nat) (it : JVal) : Except PyError LLMSearchItem :=
  match it with
  | .obj kvs =>
    match pyFloat (objGetD kvs "priority" (.float (1 / 2))) with
    | .error e => .error e
    | .ok pr =>
      match pyInt (objGetD kvs "rank" (.int i)) with
      | .error e => .error e
      | .ok rk =>
        .ok { query := (objGet kvs "query").getD .null,
              reason := (objGet kvs "reason").getD .null,
              priority := pr, rank := rk,
              tags := (objGet kvs "tags").getD .null }
  | v => .ok { query := .str (pyStr v), reason := .null, priority := 1 / 2,
               rank := i, tags := .null }

/-- The `for i, it in enumerate(..., start=i)` loop, stopping at the first
raised exception. -/
def normalizeLoop (i : Nat) : List JVal → Except PyError (List LLMSearchItem)
  | [] => .ok []
  | it :: rest =>
    match normalizeItem i it with
    | .error e => .error e
    | .ok x =>
      match normalizeLoop (i + 1) rest with
      | .error e => .error e
      | .ok xs => .ok (x :: xs)

/-- The normalization phase of the llm_local `_planner_handler`
(`parsed.get("searches", [])` and the item loop).  It runs OUTSIDE the
`try/except` in the source: `parsed.get` on a non-dict raises
`AttributeError`. -/
def normalizePlan (parsed : JVal) : Except PyError LLMSearchPlan :=
  match parsed with
  | .obj kvs =>
    match pyIterate (objGetD kvs "searches" (.arr [])) with
    | .error e => .error e
    | .ok items => (normalizeLoop 1 items).map (fun l => ⟨l⟩)
  | v => .error (.attributeError (jvalTypeName v) "get")

/-- The split pattern `r',| about | for | on | regarding | and '` of
`_simulated_planner` (llm_local). -/
def simPlannerAlts : List (List Char) :=
  [",".data, " about ".data, " for ".data, " on ".data, " regarding ".data, " and ".data]

/-- The `enumerate(parts[:3], start=1)` loop of `_simulated_planner`; the
float priorities `0.9 - i*0.1` are the exact rationals here. -/
def simOut : Nat → List String → List JVal
  | _, [] => []
  | i, p :: rest =>
    JVal.obj [("query", .str (p ++ " overview")), ("reason", .str "overview"),
        ("priority", .float (9 / 10 - (i : Rat) / 10)), ("rank", .int i)]
      :: simOut (i + 1) rest

/-- `_simulated_planner` (llm_local): a plain Python dict, embedded as the
corresponding JSON-like value. -/
def simulatedPlanner (payload : String) : JVal :=
  let parts := ((reSplit simPlannerAlts payload).map stripWsStr).filter
    (fun p => decide (p ≠ ""))
  let out := simOut 1 (parts.take 3)
  if out.isEmpty then
    .obj [("searches", .arr [.obj [("query", .str payload), ("reason", .str "keyword"),
        ("priority", .float (1 / 2)), ("rank", .int 1)]])]
  else .obj [("searches", .arr out)]

/-- The llm_local `_planner_handler`, parametrized by the outcome of the
`llm_call` boundary (`.error` = the call raised, `.ok text` = the
assistant text).  The `try/except Exception` covers the call, the
extraction and the raw-string check; the normalization phase runs after
the block and its exceptions propagate to the caller. -/
def llmPlannerHandler (llm : Except String String) (payload : String) :
    Except PyError LLMSearchPlan :=
  let parsed : JVal :=
    match llm with
    | .error _ => simulatedPlanner payload
    | .ok text =>
      match extractJsonFromText text with
      | .raw _ => simulatedPlanner payload
      | .json v => v
  normalizePlan parsed

/-! ## Lemmas: the stable sort -/

theorem mem_sInsert {le : α → α → Bool} {a b : α} {l : List α} :
    b ∈ sInsert le a l ↔ b = a ∨ b ∈ l := by
  induction l with
  | nil => simp [sInsert]
  | cons c cs ih =>
    cases h : le a c with
    | true => simp [sInsert, h]
    | false => simp [sInsert, h, ih]; tauto

theorem sInsert_perm (le : α → α → Bool) (a : α) (l : List α) :
    (sInsert le a l).Perm (a :: l) := by
  induction l with
  | nil => simp [sInsert]
  | cons b bs ih =>
    cases h : le a b with
    | true => simp [sInsert, h]
    | false =>
      rw [sInsert, if_neg (by simp [h])]
      exact (ih.cons b).trans (List.Perm.swap a b bs)

theorem stableSort_perm (le : α → α → Bool) (l : List α) : (stableSort le l).Perm l := by
  induction l with
  | nil => simp [stableSort]
  | cons a as ih => exact (sInsert_perm le a (stableSort le as)).trans (ih.cons a)

theorem pairwise_sInsert {le : α → α → Bool}
    (htr : ∀ a b c, le a b = true → le b c = true → le a c = true)
    (hto : ∀ a b, le a b = true ∨ le b a = true)
    (a : α) {l : List α} (h : l.Pairwise (fun x y => le x y = true)) :
    (sInsert le a l).Pairwise (fun x y => le x y = true) := by
  induction l with
  | nil => simp [sInsert]
  | cons b bs ih =>
    rcases List.pairwise_cons.mp h with ⟨hb, hbs⟩
    cases hab : le a b with
    | true =>
      rw [sInsert, if_pos (by simp [hab])]
      refine List.pairwise_cons.mpr ⟨?_, h⟩
      intro y hy
      rcases List.mem_cons.mp hy with rfl | hy
      · exact hab
      · exact htr a b y hab (hb y hy)
    | false =>
      rw [sInsert, if_neg (by simp [hab])]
      refine List.pairwise_cons.mpr ⟨?_, ih hbs⟩
      intro y hy
      rcases mem_sInsert.mp hy with rfl | hy
      · rcases hto y b with h1 | h1
        · rw [hab] at h1; cases h1
        · exact h1
      · exact hb y hy

theorem pairwise_stableSort {le : α → α → Bool}
    (htr : ∀ a b c, le a b = true → le b c = true → le a c = true)
    (hto : ∀ a b, le a b = true ∨ le b a = true) (l : List α) :
    (stableSort le l).Pairwise (fun x y => le x y = true) := by
  induction l with
  | nil => simp [stableSort]
  | cons a as ih => exact pairwise_sInsert htr hto a ih

theorem filter_sInsert_of_pos {le : α → α → Bool} {p : α → Bool} {a : α}
    (hpa : p a = true) (hle : ∀ b, p b = true → le a b = true) (l : List α) :
    (sInsert le a l).filter p = a :: l.filter p := by
  induction l with
  | nil => simp [sInsert, hpa]
  | cons b bs ih =>
    cases hab : le a b with
    | true => simp [sInsert, hab, hpa]
    | false =>
      have hpb : p b = false := by
        cases hpb : p b with
        | true => rw [hle b hpb] at hab; cases hab
        | false => rfl
      rw [sInsert, if_neg (by simp [hab])]
      simp [List.filter_cons, hpb, ih]

theorem filter_sInsert_of_neg {le : α → α → Bool} {p : α → Bool} {a : α}
    (hpa : p a = false) (l : List α) :
    (sInsert le a l).filter p = l.filter p := by
  induction l with
  | nil => simp [sInsert, hpa]
  | cons b bs ih =>
    cases hab : le a b with
    | true => simp [sInsert, hab, hpa]
    | false =>
      rw [sInsert, if_neg (by simp [hab])]
      simp [List.filter_cons, ih]

theorem filter_stableSort {le : α → α → Bool} {p : α → Bool}
    (hle : ∀ a b, p a = true → p b = true → le a b = true) (l : List α) :
    (stableSort le l).filter p = l.filter p := by
  induction l with
  | nil => rfl
  | cons a as ih =>
    cases hpa : p a with
    | true =>
      rw [stableSort, filter_sInsert_of_pos hpa (fun b hb => hle a b hpa hb), ih]
      simp [List.filter_cons, hpa]
    | false =>
      rw [stableSort, filter_sInsert_of_neg hpa, ih]
      simp [List.filter_cons, hpa]

/-! ## Lemmas: the refine/deduplicate loop and rank assignment -/

theorem refineLoop_key_notMem :
    ∀ (items : List WebSearchItem) (seen : List String),
      ∀ x ∈ refineLoop items seen, lowerStr x.query ∉ seen := by
  intro items
  induction items with
  | nil => intro seen x hx; simp [refineLoop] at hx
  | cons it rest ih =>
    intro seen x hx
    rw [refineLoop] at hx
    by_cases h1 : (normQuery it.query).length < 3
    · rw [if_pos h1] at hx; exact ih seen x hx
    · rw [if_neg h1] at hx
      by_cases h2 : lowerStr (normQuery it.query) ∈ seen
      · rw [if_pos h2] at hx; exact ih seen x hx
      · rw [if_neg h2] at hx
        rcases List.mem_cons.mp hx with rfl | hx
        · exact h2
        · intro hc
          exact ih _ x hx (List.mem_cons_of_mem _ hc)

theorem refineLoop_pairwise :
    ∀ (items : List WebSearchItem) (seen : List String),
      (refineLoop items seen).Pairwise (fun a b => lowerStr a.query ≠ lowerStr b.query) := by
  intro items
  induction items with
  | nil => intro seen; simp [refineLoop]
  | cons it rest ih =>
    intro seen
    rw [refineLoop]
    by_cases h1 : (normQuery it.query).length < 3
    · rw [if_pos h1]; exact ih seen
    · rw [if_neg h1]
      by_cases h2 : lowerStr (normQuery it.query) ∈ seen
      · rw [if_pos h2]; exact ih seen
      · rw [if_neg h2]
        refine List.pairwise_cons.mpr ⟨?_, ih _⟩
        intro y hy heq
        exact refineLoop_key_notMem rest _ y hy
          (by rw [← heq]; exact List.mem_cons_self _ _)

theorem assignRanks_length : ∀ (i : Nat) (l : List WebSearchItem),
    (assignRanks i l).length = l.length := by
  intro i l
  induction l generalizing i with
  | nil => rfl
  | cons c rest ih => simp [assignRanks, ih]

theorem assignRanks_map_rank : ∀ (i : Nat) (l : List WebSearchItem),
    (assignRanks i l).map (fun x => x.rank) = (List.range' i l.length).map some := by
  intro i l
  induction l generalizing i with
  | nil => rfl
  | cons c rest ih => simp [assignRanks, List.range', ih]

theorem assignRanks_map (f : WebSearchItem → β)
    (hf : ∀ (x : WebSearchItem) (i : Nat), f { x with rank := some i } = f x) :
    ∀ (i : Nat) (l : List WebSearchItem), (assignRanks i l).map f = l.map f := by
  intro i l
  induction l generalizing i with
  | nil => rfl
  | cons c rest ih => simp [assignRanks, hf, ih]

theorem assignRanks_filter_map_query (p : Rat) :
    ∀ (i : Nat) (l : List WebSearchItem),
      ((assignRanks i l).filter (fun it => decide (it.priority = p))).map (fun it => it.query)
        = (l.filter (fun it => decide (it.priority = p))).map (fun it => it.query) := by
  intro i l
  induction l generalizing i with
  | nil => rfl
  | cons c rest ih =>
    rw [assignRanks]
    by_cases hp : c.priority = p
    · simp only [List.filter_cons]
      simp [hp, ih]
    · simp only [List.filter_cons]
      simp [hp, ih]

theorem pairwise_of_map_eq (f : α → β) (r : β → β → Prop) {l₁ l₂ : List α}
    (h : l₁.map f = l₂.map f) (hp : l₂.Pairwise (fun a b => r (f a) (f b))) :
    l₁.Pairwise (fun a b => r (f a) (f b)) := by
  have h2 : (l₂.map f).Pairwise r := List.pairwise_map.mpr hp
  rw [← h] at h2
  exact List.pairwise_map.mp h2

theorem priorityDesc_trans : ∀ a b c : WebSearchItem,
    priorityDesc a b = true → priorityDesc b c = true → priorityDesc a c = true := by
  intro a b c h1 h2
  simp only [priorityDesc, decide_eq_true_eq] at *
  exact le_trans h2 h1

theorem priorityDesc_total : ∀ a b : WebSearchItem,
    priorityDesc a b = true ∨ priorityDesc b a = true := by
  intro a b
  simp only [priorityDesc, decide_eq_true_eq]
  exact le_total b.priority a.priority

theorem determine_search_count_le_six (q : String) : determine_search_count q ≤ 6 := by
  rw [determine_search_count]
  split
  · decide
  · simp only [MIN_SEARCHES, MAX_SEARCHES]
    omega

/-! ## Lemmas: whitespace-only queries -/

theorem reSplitGo_chars (alts : List (List Char)) :
    ∀ (fuel : Nat) (cs cur : List Char), ∀ t ∈ reSplitGo alts fuel cs cur,
      ∀ a ∈ t, a ∈ cs ∨ a ∈ cur := by
  intro fuel
  induction fuel with
  | zero =>
    intro cs cur t ht a ha
    cases cs with
    | nil =>
      rw [reSplitGo] at ht
      rcases List.mem_singleton.mp ht with rfl
      exact Or.inr (List.mem_reverse.mp ha)
    | cons c rest =>
      have heq : reSplitGo alts 0 (c :: rest) cur = [cur.reverse ++ (c :: rest)] := rfl
      rw [heq] at ht
      rcases List.mem_singleton.mp ht with rfl
      rcases List.mem_append.mp ha with h | h
      · exact Or.inr (List.mem_reverse.mp h)
      · exact Or.inl h
  | succ fuel ih =>
    intro cs cur t ht a ha
    cases cs with
    | nil =>
      rw [reSplitGo] at ht
      rcases List.mem_singleton.mp ht with rfl
      exact Or.inr (List.mem_reverse.mp ha)
    | cons c rest =>
      rw [reSplitGo] at ht
      cases hm : altMatch alts (c :: rest) with
      | some m =>
        rw [hm] at ht
        rcases List.mem_cons.mp ht with rfl | ht
        · exact Or.inr (List.mem_reverse.mp ha)
        · rcases ih _ _ t ht a ha with h | h
          · exact Or.inl ((List.drop_sublist m (c :: rest)).mem h)
          · cases h
      | none =>
        rw [hm] at ht
        rcases ih rest (c :: cur) t ht a ha with h | h
        · exact Or.inl (List.mem_cons_of_mem c h)
        · rcases List.mem_cons.mp h with rfl | h
          · exact Or.inl (List.mem_cons_self _ _)
          · exact Or.inr h

theorem stripL_of_all_space {cs : List Char} (h : ∀ c ∈ cs, isPySpace c = true) :
    stripL cs = [] := by
  have h1 : cs.dropWhile isPySpace = [] := by
    rw [List.dropWhile_eq_nil_iff]
    intro x hx
    exact h x hx
  rw [stripL, h1]
  rfl

theorem stripWsStr_of_all_space {s : String} (h : ∀ c ∈ s.data, isPySpace c = true) :
    stripWsStr s = "" := by
  rw [stripWsStr, stripL_of_all_space h]

theorem splitWsGo_of_all_space :
    ∀ (cs : List Char), (∀ c ∈ cs, isPySpace c = true) → splitWsGo cs [] = [] := by
  intro cs
  induction cs with
  | nil => intro _; rfl
  | cons c rest ih =>
    intro h
    have hc : isPySpace c = true := h c (List.mem_cons_self _ _)
    rw [splitWsGo, if_pos (by simp [hc])]
    simp [List.isEmpty, ih (fun x hx => h x (List.mem_cons_of_mem _ hx))]

theorem splitWsStr_of_all_space {s : String} (h : ∀ c ∈ s.data, isPySpace c = true) :
    splitWsStr s = [] := by
  rw [splitWsStr, splitWsGo_of_all_space s.data h]
  rfl

theorem plannerParts_of_all_space {q : String} (h : ∀ c ∈ q.data, isPySpace c = true) :
    plannerParts q = [] := by
  rw [plannerParts, List.filter_eq_nil_iff]
  intro p hp
  rcases List.mem_map.mp hp with ⟨t, ht, rfl⟩
  rcases List.mem_map.mp ht with ⟨tok, htok, rfl⟩
  have hts : ∀ c ∈ tok, isPySpace c = true := by
    intro a ha
    rcases reSplitGo_chars plannerSplitAlts q.data.length q.data [] tok htok a ha with h1 | h1
    · exact h a h1
    · cases h1
  have : stripWsStr (String.mk tok) = "" := stripWsStr_of_all_space hts
  simp [this]

theorem plannerCandidates_of_all_space {q : String} (h : ∀ c ∈ q.data, isPySpace c = true) :
    plannerCandidates q = [] := by
  rw [plannerCandidates, plannerParts_of_all_space h, splitWsStr_of_all_space h]
  rfl

/-! ## Claim theorems -/

/-- C1 (amended): for every input query the heuristic `plan` returns a
`WebSearchPlan` with at most 6 searches, no two of which have equal
case-insensitive query text (queries are stored in normalized form, so
this is the case-insensitive normalized text).  The lower bound of 1 from
the original claim does not hold; see the counterexample. -/
theorem plan_at_most_six_and_dedup (q : String) :
    (plannerHandler q).searches.length ≤ 6
  ∧ (plannerHandler q).searches.Pairwise
      (fun a b => lowerStr a.query ≠ lowerStr b.query) := by
  constructor
  · show (assignRanks 1 (validate_and_refine_searches (plannerCandidates q)
      (determine_search_count q))).length ≤ 6
    rw [assignRanks_length, validate_and_refine_searches]
    exact le_trans (List.length_take_le _ _) (determine_search_count_le_six q)
  · show (assignRanks 1 (validate_and_refine_searches (plannerCandidates q)
      (determine_search_count q))).Pairwise (fun a b => lowerStr a.query ≠ lowerStr b.query)
    have h0 := refineLoop_pairwise (plannerCandidates q) []
    have hperm := stableSort_perm priorityDesc (refineLoop (plannerCandidates q) [])
    have hsym : ∀ {x y : WebSearchItem},
        lowerStr x.query ≠ lowerStr y.query → lowerStr y.query ≠ lowerStr x.query :=
      fun hxy => Ne.symm hxy
    have h1 : (stableSort priorityDesc (refineLoop (plannerCandidates q) [])).Pairwise
        (fun a b => lowerStr a.query ≠ lowerStr b.query) :=
      (hperm.pairwise_iff hsym).mpr h0
    have h2 : ((stableSort priorityDesc (refineLoop (plannerCandidates q) [])).take
        (determine_search_count q)).Pairwise
        (fun a b => lowerStr a.query ≠ lowerStr b.query) :=
      h1.sublist (List.take_sublist _ _)
    have hmap := assignRanks_map (fun x : WebSearchItem => lowerStr x.query) (fun _ _ => rfl) 1
      ((stableSort priorityDesc (refineLoop (plannerCandidates q) [])).take
        (determine_search_count q))
    exact pairwise_of_map_eq (fun x : WebSearchItem => lowerStr x.query)
      (fun a b => a ≠ b) hmap h2

/-- C1 counterexample: `","` is a non-empty query, yet the heuristic
`plan` returns an empty searches list (length 0, outside `[1, 6]`): the
split yields no parts and the keyword fallback candidate `","` normalizes
to the empty string and is dropped by the length-3 filter. -/
theorem plan_comma_empty :
    ("," : String) ≠ "" ∧ (plannerHandler ",").searches.length = 0 := by
  exact ⟨by decide, rfl⟩

/-- C2: the ranks assigned by the heuristic `plan` are exactly
`1..k` in order (`k` = number of returned items), priorities are
non-increasing along the list (rank increases as priority descends), and
equal-priority items keep the relative order they had in the pre-sort
deduplicated list (stability of the sort): for every priority value `p`,
the sequence of queries with priority `p` in the output is a subsequence
of the one in `refineLoop` output. -/
theorem plan_ranks_sorted_stable (q : String) :
    ((plannerHandler q).searches.map (fun it => it.rank)
        = (List.range' 1 (plannerHandler q).searches.length).map some)
  ∧ (plannerHandler q).searches.Pairwise (fun a b => b.priority ≤ a.priority)
  ∧ ∀ p : Rat,
      List.Sublist
        (((plannerHandler q).searches.filter
            (fun it => decide (it.priority = p))).map (fun it => it.query))
        (((refineLoop (plannerCandidates q) []).filter
            (fun it => decide (it.priority = p))).map (fun it => it.query)) := by
  refine ⟨?_, ?_, ?_⟩
  · show (assignRanks 1 (validate_and_refine_searches (plannerCandidates q)
        (determine_search_count q))).map (fun it => it.rank)
      = (List.range' 1 (assignRanks 1 (validate_and_refine_searches (plannerCandidates q)
        (determine_search_count q))).length).map some
    rw [assignRanks_map_rank, assignRanks_length]
  · show (assignRanks 1 (validate_and_refine_searches (plannerCandidates q)
      (determine_search_count q))).Pairwise (fun a b => b.priority ≤ a.priority)
    have hs := pairwise_stableSort priorityDesc_trans priorityDesc_total
      (refineLoop (plannerCandidates q) [])
    have hs2 : (stableSort priorityDesc (refineLoop (plannerCandidates q) [])).Pairwise
        (fun a b => b.priority ≤ a.priority) :=
      hs.imp (fun hab => by
        simpa [priorityDesc] using hab)
    have h3 : ((stableSort priorityDesc (refineLoop (plannerCandidates q) [])).take
        (determine_search_count q)).Pairwise (fun a b => b.priority ≤ a.priority) :=
      hs2.sublist (List.take_sublist _ _)
    have hmap := assignRanks_map (fun x : WebSearchItem => x.priority) (fun _ _ => rfl) 1
      ((stableSort priorityDesc (refineLoop (plannerCandidates q) [])).take
        (determine_search_count q))
    exact pairwise_of_map_eq (fun x : WebSearchItem => x.priority)
      (fun a b : Rat => b ≤ a) hmap h3
  · intro p
    have hfilter : (stableSort priorityDesc (refineLoop (plannerCandidates q) [])).filter
          (fun it => decide (it.priority = p))
        = (refineLoop (plannerCandidates q) []).filter
          (fun it => decide (it.priority = p)) :=
      filter_stableSort (fun a b ha hb => by
        have ha' := of_decide_eq_true ha
        have hb' := of_decide_eq_true hb
        simp [priorityDesc, ha', hb']) _
    have hsub : List.Sublist
        (((stableSort priorityDesc (refineLoop (plannerCandidates q) [])).take
            (determine_search_count q)).filter (fun it => decide (it.priority = p)))
        ((stableSort priorityDesc (refineLoop (plannerCandidates q) [])).filter
          (fun it => decide (it.priority = p))) :=
      List.Sublist.filter _ (List.take_sublist _ _)
    rw [hfilter] at hsub
    have hmapq : (((plannerHandler q).searches).filter
          (fun it => decide (it.priority = p))).map (fun it => it.query)
        = ((((stableSort priorityDesc (refineLoop (plannerCandidates q) [])).take
            (determine_search_count q)).filter
            (fun it => decide (it.priority = p))).map (fun it => it.query)) :=
      assignRanks_filter_map_query p 1 _
    rw [hmapq]
    exact List.Sublist.map _ hsub

/-- C3 (amended): the extractor is total and either returns a parsed JSON
value or the original input string unchanged; the three documented
examples hold.  When no brace/bracket span exists the candidate is the
WHOLE text, which may itself parse (final conjunct), rather than always
falling back to the raw text as the original claim stated. -/
theorem extract_total_and_examples :
    (∀ t : String, (∃ v, extractJsonFromText t = .json v) ∨ extractJsonFromText t = .raw t)
  ∧ extractJsonFromText "prefix \x7b\"a\": 1\x7d suffix" = .json (.obj [("a", .int 1)])
  ∧ extractJsonFromText "not json at all" = .raw "not json at all"
  ∧ extractJsonFromText "\x7b'a': 1\x7d" = .json (.obj [("a", .int 1)])
  ∧ extractJsonFromText "42" = .json (.int 42) := by
  refine ⟨fun t => ?_, rfl, rfl, rfl, rfl⟩
  rw [extractJsonFromText]
  cases jsonLoads ((findSpan t.data).getD t.data) with
  | some v => exact Or.inl ⟨v, rfl⟩
  | none =>
    cases jsonLoads (((findSpan t.data).getD t.data).map
        (fun c => if c == '\'' then '"' else c)) with
    | some v => exact Or.inl ⟨v, rfl⟩
    | none => exact Or.inr rfl

/-- C3 counterexample: `"42"` contains no brace/bracket span, yet the
extractor parses the whole text and returns the integer 42 instead of the
original string unchanged. -/
theorem extract_bare_value_not_raw :
    findSpan ("42".data) = none ∧ extractJsonFromText "42" ≠ .raw "42" := by
  refine ⟨rfl, fun h => ?_⟩
  rw [show extractJsonFromText "42" = .json (.int 42) from rfl] at h
  exact ExtractOut.noConfusion h

/-- C4 (amended): `determine_search_count` equals 1 plus one per signal
on the trimmed query, clamped to `[1, 6]`, where the question-word signal
is a SUBSTRING test over the source's 15-word set (not word-level
presence over the 13-word list of the claim). -/
theorem determine_search_count_eq_amended (q : String) :
    determine_search_count q = searchCountAmended q := by
  by_cases h : stripWsStr q = ""
  · rw [determine_search_count, if_pos h, searchCountAmended, h]
    decide
  · rw [determine_search_count, if_neg h, searchCountAmended]
    rfl

/-- C4 counterexample: `"crisis"` contains the question word `"is"` only
as a substring; the source counts the signal (result 2) while the claim's
word-level formula does not (result 1). -/
theorem search_count_crisis :
    determine_search_count "crisis" = 2 ∧ searchCountClaimed "crisis" = 1 :=
  ⟨rfl, rfl⟩

/-- C5 (amended): on a list payload the fallback search returns exactly
one result per input item in input order (hence `search([]) = []`), with
`snippet = "Simulated snippet for '<query>': key findings and summary."`
and `url = "https://example.com/search?q=" ++` the query with each space
replaced by `'+'` (no other characters are encoded). -/
theorem search_fallback_is_map (l : List WebSearchItem) :
    searchHandler (.items l) = l.map simulatedResult := by
  show searchLoop l = l.map simulatedResult
  induction l with
  | nil => rfl
  | cons it rest ih => rw [searchLoop, List.map_cons, ih]

/-- C5 counterexample: for the query `"a&b"` the produced URL keeps the
`&` verbatim, which differs from the url-encoded form `a%26b` required by
the claim. -/
theorem search_url_not_percent_encoded :
    (searchHandler (.items [⟨"a&b", none, 1 / 2, none, none⟩])).map (fun r => r.url)
      = ["https://example.com/search?q=a&b"]
  ∧ "https://example.com/search?q=" ++ quotePlus "a&b" = "https://example.com/search?q=a%26b"
  ∧ ("https://example.com/search?q=a&b" : String) ≠ "https://example.com/search?q=a%26b" :=
  ⟨rfl, rfl, by decide⟩

/-- C6: the Manager pipeline returns exactly the Writing-stage report —
the Emailing result is computed, discarded, and never fails (the email
handler is total and returns `"email_sent"` on every report). -/
theorem manager_returns_writer_report (q : String) :
    managerRun q = Except.ok (pipelineReport q)
  ∧ ∀ r : ReportData, emailHandler (.report r) = "email_sent" :=
  ⟨rfl, fun _ => rfl⟩

/-- C7: `final_output_as` returns the value unchanged when it already
satisfies the target type; on a key-value map it makes exactly one
field-by-field construction attempt, failing with a coercion error naming
the target type when the construction raises; on any other value it fails
immediately with a coercion error naming the target and source types. -/
theorem final_output_as_characterization (out : PyVal) (ty : PyType) :
    (instanceOf out ty = true → final_output_as out ty = .ok out)
  ∧ (∀ d w, out = PyVal.dict d → instanceOf out ty = false →
      constructFrom ty d = some w → final_output_as out ty = .ok w)
  ∧ (∀ d, out = PyVal.dict d → instanceOf out ty = false →
      constructFrom ty d = none →
      final_output_as out ty = .error (.constructionFailed ty.name))
  ∧ ((∀ d, out ≠ PyVal.dict d) → instanceOf out ty = false →
      final_output_as out ty = .error (.wrongShape ty.name (pyTypeName out))) := by
  refine ⟨fun h => ?_, fun d w hd h hc => ?_, fun d hd h hc => ?_, fun hnd h => ?_⟩
  · rw [final_output_as, if_pos h]
  · subst hd
    rw [final_output_as, if_neg (by simp [h])]
    simp [coerceNonInstance, hc]
  · subst hd
    rw [final_output_as, if_neg (by simp [h])]
    simp [coerceNonInstance, hc]
  · rw [final_output_as, if_neg (by simp [h])]
    cases out with
    | str s => rfl
    | int n => rfl
    | noneV => rfl
    | list xs => rfl
    | dict d => exact absurd rfl (hnd d)
    | inst n fs => rfl

/-- C7 witness: the four branches of `final_output_as` at concrete
inputs against the `ReportData` type. -/
theorem final_output_as_characterization_witness :
    final_output_as (.inst "ReportData" [("title", .str "t"), ("markdown_report", .str "m"),
        ("metadata", .noneV)]) reportDataTy
      = .ok (.inst "ReportData" [("title", .str "t"), ("markdown_report", .str "m"),
        ("metadata", .noneV)])
  ∧ final_output_as (.dict [("title", .str "t"), ("markdown_report", .str "m")]) reportDataTy
      = .ok (.inst "ReportData" [("title", .str "t"), ("markdown_report", .str "m"),
        ("metadata", .noneV)])
  ∧ final_output_as (.dict [("bogus", .noneV)]) reportDataTy
      = .error (.constructionFailed "ReportData")
  ∧ final_output_as (.str "x") reportDataTy = .error (.wrongShape "ReportData" "str") :=
  ⟨(final_output_as_characterization _ _).1 rfl,
   (final_output_as_characterization _ _).2.1 _ _ rfl rfl rfl,
   (final_output_as_characterization _ _).2.2.1 _ rfl rfl rfl,
   (final_output_as_characterization _ _).2.2.2 (fun _ h => PyVal.noConfusion h) rfl⟩

/-- C8: the llm_local planner handler is NOT total over LLM outcomes —
when the LLM call succeeds with the array-shaped text `"[1, 2]"`, the
extractor yields a Python list, the raw-string fallback check does not
fire, and the normalization (outside the `try`) raises `AttributeError`
(`'list' object has no attribute 'get'`); the heuristic downgrade does
work when the LLM call itself fails (second conjunct). -/
theorem llm_planner_raises_on_json_array :
    llmPlannerHandler (.ok "[1, 2]") "q" = .error (.attributeError "list" "get")
  ∧ (∃ pl, llmPlannerHandler (.error "LLM call failed") "q" = .ok pl) :=
  ⟨rfl, ⟨_, rfl⟩⟩

/-- C9: the writer on the empty result list produces a `ReportData` whose
metadata count is 0 and whose markdown contains the fixed report title. -/
theorem write_empty_report :
    (writerHandler (.items [])).metadata = some [("count", 0)]
  ∧ containsSubstr (writerHandler (.items [])).markdown_report "Research Report" = true
  ∧ (writerHandler (.items [])).title = "Research Report" :=
  ⟨rfl, rfl, rfl⟩

/-- C10: on an empty or whitespace-only query the heuristic `plan`
returns (without raising) a `WebSearchPlan` with an empty searches list:
the topic split and the keyword fallback produce no candidates. -/
theorem plan_whitespace_empty (q : String) (h : ∀ c ∈ q.data, isPySpace c = true) :
    plannerHandler q = ⟨[]⟩ := by
  rw [plannerHandler, plannerCandidates_of_all_space h]
  simp [validate_and_refine_searches, refineLoop, stableSort, assignRanks]

/-- C10 witness: the single-space query. -/
theorem plan_whitespace_empty_witness :
    (∀ c ∈ (" " : String).data, isPySpace c = true) ∧ plannerHandler " " = ⟨[]⟩ :=
  ⟨by decide, plan_whitespace_empty " " (by decide)⟩

end Agents
